import Mathlib

/-!
Shallow embedding of the sasquat per-domain verification pipeline
(`lib/verify`: dns.go, http.go, verify.go, the TLS probe, and the worker
loop of main) together with proofs about the claims of the specification.

Network effects (DNS lookups, TCP/TLS dialing, HTTP round trips, the IDNA
conversion of the external idna package) are modelled as oracle
parameters: each embedded function takes an environment describing what
the outside world answers, and the Go control flow over those answers is
translated verbatim.  A Go runtime panic (nil-pointer dereference) is
modelled as the value none of an Option-typed result.
-/

namespace Sasquat

/-! ### Go base values -/

/-- Model of a Go non-nil `error` value.  `errors.Is(err, context.DeadlineExceeded)`
and `errors.Is(err, context.Canceled)` are modelled by the two Boolean fields. -/
structure GoError where
  msg : String
  isDeadlineExceeded : Bool
  isCanceled : Bool
deriving Repr, DecidableEq

/-- The error of a Go `(value, error)` pair, modelled as `Except`. -/
def errOf : Except GoError α → Option GoError
  | .ok _ => none
  | .error e => some e

/-- Model of Go `strings.TrimSuffix s suf`: removes one copy of `suf`
from the end of `s` when present (computed over the character list so
that it evaluates by kernel reduction). -/
def goTrimSuffix (s suf : String) : String :=
  if suf.data.isSuffixOf s.data then ⟨s.data.take (s.data.length - suf.data.length)⟩ else s

/-- Model of Go `unicode.IsSpace` on the characters `strings.TrimSpace`
trims (ASCII whitespace plus NEL and NBSP in the Latin-1 range). -/
def goIsSpace (c : Char) : Bool :=
  c = ' ' || c = '\t' || c = '\n' || c = '\r' ||
    c.toNat = 11 || c.toNat = 12 || c.toNat = 133 || c.toNat = 160

/-- Model of Go `strings.TrimSpace`: drops whitespace from both ends. -/
def goTrimSpace (s : String) : String :=
  ⟨((s.data.dropWhile goIsSpace).reverse.dropWhile goIsSpace).reverse⟩

/-- ASCII lower-casing of one character. -/
def goToLowerChar (c : Char) : Char :=
  if 'A' ≤ c && c ≤ 'Z' then Char.ofNat (c.toNat + 32) else c

/-- Model of Go `strings.EqualFold` (adequate for the ASCII domains the
program handles): case-insensitive equality. -/
def goEqualFold (s t : String) : Bool :=
  s.data.map goToLowerChar == t.data.map goToLowerChar

/-! ### dns.go : data model -/

/-- `DNSResult` of dns.go. -/
structure DNSResult where
  HasA : Bool
  HasAAAA : Bool
  HasCNAME : Bool
  HasMX : Bool
  HasNS : Bool
  A : List String
  AAAA : List String
  CNAME : String
  MX : List String
  NS : List String
deriving Repr, DecidableEq

/-- The Go zero value `DNSResult{}`. -/
def zeroDNSResult : DNSResult :=
  ⟨false, false, false, false, false, [], [], "", [], []⟩

/-- Model of one `net.IPAddr` returned by `LookupIPAddr`: whether
`ip.IP.To4()` and `ip.IP.To16()` are non-nil, and `ip.IP.String()`. -/
structure IPAddr where
  toV4 : Bool
  toV16 : Bool
  str : String
deriving Repr, DecidableEq

/-- Oracle for the four resolver calls `lookupDNS` makes for one domain:
`LookupIPAddr`, `LookupCNAME`, `LookupMX` (the `Host` of each record) and
`LookupNS` (the `Host` of each record). -/
structure DNSAnswers where
  ipAddrs : Except GoError (List IPAddr)
  cname : Except GoError String
  mx : Except GoError (List String)
  ns : Except GoError (List String)
deriving Repr

/-- The A/AAAA loop body of `lookupDNS`: v4 addresses are recorded under A,
otherwise addresses with a valid 16-byte form under AAAA. -/
def recordIP (r : DNSResult) (ip : IPAddr) : DNSResult :=
  if ip.toV4 then { r with HasA := true, A := r.A ++ [ip.str] }
  else if ip.toV16 then { r with HasAAAA := true, AAAA := r.AAAA ++ [ip.str] }
  else r

/-- The record-collection part of `lookupDNS` (dns.go lines 26-67): the four
lookups populate the result independently; a failed lookup contributes
nothing. -/
def dnsFromAnswers (domain : String) (ans : DNSAnswers) : DNSResult :=
  let r := zeroDNSResult
  let r := match ans.ipAddrs with
    | .ok ips => ips.foldl recordIP r
    | .error _ => r
  let r := match ans.cname with
    | .ok cname =>
        if cname ≠ "" && !goEqualFold (goTrimSuffix cname ".") domain then
          { r with HasCNAME := true, CNAME := goTrimSuffix cname "." }
        else r
    | .error _ => r
  let r := match ans.mx with
    | .ok mxs =>
        if mxs ≠ [] then
          { r with HasMX := true, MX := mxs.map (goTrimSuffix · ".") }
        else r
    | .error _ => r
  match ans.ns with
  | .ok nss =>
      if nss ≠ [] then
        { r with HasNS := true, NS := nss.map (goTrimSuffix · ".") }
      else r
  | .error _ => r

/-- The error-selection ladder of dns.go lines 72-85: the first non-nil
error among the address, CNAME, MX and NS lookups, in that order (nil when
all four lookups succeeded). -/
def dnsErrChoice (ans : DNSAnswers) : Option GoError :=
  match errOf ans.ipAddrs with
  | some e => some e
  | none =>
    match errOf ans.cname with
    | some e => some e
    | none =>
      match errOf ans.mx with
      | some e => some e
      | none => errOf ans.ns

/-- `lookupDNS` of dns.go: collects the four lookups, then (lines 69-87)
returns nil error when any presence flag is set, and otherwise the first
error in the order address, CNAME, MX, NS. -/
def lookupDNS (domain : String) (ans : DNSAnswers) : DNSResult × Option GoError :=
  let r := dnsFromAnswers domain ans
  if !r.HasA && !r.HasAAAA && !r.HasCNAME && !r.HasMX && !r.HasNS then
    (r, dnsErrChoice ans)
  else (r, none)

/-- Whether any presence flag of a `DNSResult` is set ("some record type
produced data" in the words of the specification). -/
def dnsAnyData (r : DNSResult) : Bool :=
  r.HasA || r.HasAAAA || r.HasCNAME || r.HasMX || r.HasNS

/-- The error of the first failing lookup in the priority order
[address, CNAME, MX, NS], stated independently of the nested-if shape of
the source. -/
def dnsFirstFailure (ans : DNSAnswers) : Option GoError :=
  (([errOf ans.ipAddrs, errOf ans.cname, errOf ans.mx, errOf ans.ns]).filterMap id).head?

/-! ### verify.go : configuration and shared helpers -/

/-- `Config` of verify.go.  Durations are modelled as signed nanosecond
counts, matching Go `time.Duration`. -/
structure Config where
  DNSTimeout : Int
  HTTPTimeout : Int
  TLSTimeout : Int
  DoTLS : Bool
  DoHTTP : Bool
  HTTPFollowRedirects : Bool
  UserAgent : String
deriving Repr, DecidableEq

/-- The defaulting prologue of `VerifyDomain` (verify.go lines 39-50):
non-positive timeouts and an empty user agent are replaced on the local
copy of the configuration. -/
def applyDefaults (cfg : Config) : Config :=
  let cfg := if cfg.DNSTimeout ≤ 0 then { cfg with DNSTimeout := 2000000000 } else cfg
  let cfg := if cfg.HTTPTimeout ≤ 0 then { cfg with HTTPTimeout := 4000000000 } else cfg
  let cfg := if cfg.TLSTimeout ≤ 0 then { cfg with TLSTimeout := 3000000000 } else cfg
  if cfg.UserAgent = "" then { cfg with UserAgent := "sasquat-verifier/1.0" } else cfg

/-- `getTargetDomain` of verify.go. -/
def getTargetDomain (https : Bool) (domain : String) : String :=
  if https then "https://" ++ domain ++ "/" else "http://" ++ domain ++ "/"

/-- The error `errors.New "empty domain"` of `toASCII`. -/
def invalidDomainErr : GoError := ⟨"empty domain", false, false⟩

/-- `toASCII` of verify.go.  The external `idna.Lookup.ToASCII` is an
oracle parameter returning a Go `(string, error)` pair, which `toASCII`
passes through unchanged. -/
def toASCII (idna : String → String × Option GoError) (domain : String) :
    String × Option GoError :=
  let d := goTrimSpace (goTrimSuffix domain ".")
  if d = "" then ("", some invalidDomainErr)
  else idna d

/-! ### TLS probe (fetchTLS) -/

/-- `TLSResult` of the TLS probe.  `time.Time` fields are modelled as
integers (Unix nanoseconds), with 0 as the Go zero time. -/
structure TLSResult where
  Connected : Bool
  ServerName : String
  Issuer : String
  Subject : String
  NotBefore : Int
  NotAfter : Int
  DNSNames : List String
  CommonName : String
  SerialNumber : String
deriving Repr, DecidableEq

/-- The Go zero value `TLSResult{}`. -/
def zeroTLSResult : TLSResult := ⟨false, "", "", "", 0, 0, [], "", ""⟩

/-- Model of an `x509.Certificate` as the fields `fetchTLS` reads from the
first peer certificate. -/
structure Cert where
  Issuer : String
  Subject : String
  NotBefore : Int
  NotAfter : Int
  DNSNames : List String
  CommonName : String
  SerialNumber : String
deriving Repr, DecidableEq

/-- Oracle for one `fetchTLS` call: whether the TCP dial on port 443
succeeds, whether the TLS handshake succeeds, and the peer certificate
chain of the connection state. -/
structure TLSEnv where
  dialOk : Bool
  handshakeOk : Bool
  peerCerts : List Cert
deriving Repr, DecidableEq

/-- `fetchTLS` of the TLS probe: dial failure and handshake failure both
return the initial result (whose `ServerName` was set to the input domain);
on success, `Connected` is set and metadata is copied from the first peer
certificate, if any.  The Go function returns no error value. -/
def fetchTLS (domain : String) (env : TLSEnv) : TLSResult :=
  let res := { zeroTLSResult with ServerName := domain }
  if !env.dialOk then res
  else if !env.handshakeOk then res
  else
    let res := { res with Connected := true }
    match env.peerCerts with
    | [] => res
    | cert :: _ =>
        { res with
          Issuer := cert.Issuer
          Subject := cert.Subject
          NotBefore := cert.NotBefore
          NotAfter := cert.NotAfter
          DNSNames := cert.DNSNames
          CommonName := cert.CommonName
          SerialNumber := cert.SerialNumber }

/-! ### HTTP probe (http.go) -/

/-- `HTTPResult` of http.go. -/
structure HTTPResult where
  Attempted : Bool
  URL : String
  Status : String
  StatusCode : Int
  Location : String
  Server : String
  RedirectChain : List String
deriving Repr, DecidableEq

/-- Model of an `http.Response` as `fetchHTTP` and the redirect loop of
`http.Client.Do` observe it: status line, status code, the Location and
Server headers, whether the client treats it as a followable redirect,
and the resolved URL of the next request when it does. -/
structure Response where
  Status : String
  StatusCode : Int
  LocationHdr : String
  ServerHdr : String
  isRedirect : Bool
  nextURL : String
deriving Repr, DecidableEq

/-- Oracle for the HTTP stack: `send url` is the transport outcome of one
request to `url` (an error models a transport-level failure), and
`newReq url` is the error of `http.NewRequestWithContext` for `url`. -/
structure HTTPEnv where
  send : String → Except GoError Response
  newReq : String → Option GoError

/-- The error a `CheckRedirect` callback returns at the redirect limit
(http.go line 45). -/
def redirectStopErr : GoError := ⟨"stopped after 10 redirects", false, false⟩

/-- Outcome of `http.Client.Do` plus the state of the redirect closure and
the trace of request URLs sent on the wire.  Go's contract: `resp` is
non-nil whenever `err` is nil, and a non-nil `resp` together with a
non-nil `err` occurs exactly when `CheckRedirect` failed (it is then the
previous response). -/
structure DoResult where
  resp : Option Response
  err : Option GoError
  chain : List String
  trace : List String
deriving Repr

/-- The redirect loop of `http.Client.Do` under the follow-redirects
`CheckRedirect` closure of http.go (lines 43-49).  Go calls the closure
with `via` holding the requests already sent and refuses the next hop when
`len(via) >= 10`; `budget` is `10 - len(via)`, so the initial call (one
request already sent once the first response is in hand) uses budget 9.
On an allowed hop the closure appends the next request URL to its captured
chain before the hop is attempted. -/
def doFollow (send : String → Except GoError Response) :
    List String → List String → String → Nat → DoResult
  | chain, trace, url, 0 =>
    let trace' := trace ++ [url]
    match send url with
    | .error e => ⟨none, some e, chain, trace'⟩
    | .ok r =>
      if r.isRedirect then ⟨some r, some redirectStopErr, chain, trace'⟩
      else ⟨some r, none, chain, trace'⟩
  | chain, trace, url, b + 1 =>
    let trace' := trace ++ [url]
    match send url with
    | .error e => ⟨none, some e, chain, trace'⟩
    | .ok r =>
      if r.isRedirect then doFollow send (chain ++ [r.nextURL]) trace' r.nextURL b
      else ⟨some r, none, chain, trace'⟩

/-- Model of the `http.Client` built by `configureHTTPClient`: the
configured timeout, which `CheckRedirect` policy was installed, and the
redirect-chain state captured by the follow-redirects closure.  Because Go
passes the `result` argument by value, the closure captures a copy of the
caller's `HTTPResult`; `chain` is that copy's `RedirectChain`. -/
structure GoHTTPClient where
  timeout : Int
  followRedirects : Bool
  chain : List String
deriving Repr

/-- `configureHTTPClient` of http.go: installs either the short-circuit
policy (`ErrUseLastResponse`) or the bounded-follow policy whose closure
captures `result` by value. -/
def configureHTTPClient (cfg : Config) (result : HTTPResult) : GoHTTPClient :=
  { timeout := cfg.HTTPTimeout
    followRedirects := cfg.HTTPFollowRedirects
    chain := result.RedirectChain }

/-- One `client.Do(req)` call: under `ErrUseLastResponse` the first
response is returned as-is with a nil error; under the follow policy the
redirect loop runs.  Returns the Do outcome, the client with the updated
closure state, and the trace of request URLs sent. -/
def clientDo (client : GoHTTPClient) (send : String → Except GoError Response)
    (url : String) : DoResult × GoHTTPClient :=
  if client.followRedirects then
    let d := doFollow send client.chain [] url 9
    (d, { client with chain := d.chain })
  else
    match send url with
    | .error e => (⟨none, some e, client.chain, [url]⟩, client)
    | .ok r => (⟨some r, none, client.chain, [url]⟩, client)

/-- `generateHTTPResult` of http.go: `Attempted` true, an empty redirect
chain, and the target URL for the requested scheme. -/
def generateHTTPResult (https : Bool) (domain : String) : HTTPResult :=
  { Attempted := true
    URL := getTargetDomain https domain
    Status := ""
    StatusCode := 0
    Location := ""
    Server := ""
    RedirectChain := [] }

/-- `fetchHTTP` of http.go, instrumented with the trace of request URLs
sent on the wire.  The first component is `none` exactly when the Go code
would dereference a nil `*http.Response` (the fall-through at lines 89-92
executed after a failed `Do` with `https == false`); every other path
returns the `HTTPResult` the Go code returns.  The fallback attempt reuses
the same client (and hence the same redirect closure). -/
def fetchHTTPT (env : HTTPEnv) (https : Bool) (domain : String) (cfg : Config) :
    Option HTTPResult × List String :=
  let res := generateHTTPResult https domain
  let client := configureHTTPClient cfg res
  match env.newReq res.URL with
  | some _ => (some res, [])
  | none =>
    let d1 := (clientDo client env.send res.URL).1
    let client2 := (clientDo client env.send res.URL).2
    if d1.err.isSome && https then
      let res := { res with URL := getTargetDomain false domain }
      match env.newReq res.URL with
      | some _ => (some res, d1.trace)
      | none =>
        let d2 := (clientDo client2 env.send res.URL).1
        match d2.err with
        | some _ => (some res, d1.trace ++ d2.trace)
        | none =>
          match d2.resp with
          | none => (none, d1.trace ++ d2.trace)
          | some r2 =>
              (some { res with
                        Status := r2.Status
                        StatusCode := r2.StatusCode
                        Location := r2.LocationHdr
                        Server := r2.ServerHdr },
               d1.trace ++ d2.trace)
    else
      match d1.resp with
      | none => (none, d1.trace)
      | some r =>
          (some { res with
                    Status := r.Status
                    StatusCode := r.StatusCode
                    Location := r.LocationHdr
                    Server := r.ServerHdr },
           d1.trace)

/-- `fetchHTTP` as the caller sees it: the result alone, `none` modelling
the nil-pointer panic. -/
def fetchHTTP (env : HTTPEnv) (https : Bool) (domain : String) (cfg : Config) :
    Option HTTPResult :=
  (fetchHTTPT env https domain cfg).1

/-! ### Verification orchestrator (verify.go) -/

/-- `Verification` of verify.go.  The `*TLSResult` and `*HTTPResult`
pointer fields are modelled as options, `none` being a nil pointer. -/
structure Verification where
  Domain : String
  ASCII : String
  DNS : DNSResult
  TLS : Option TLSResult
  HTTP : Option HTTPResult
  Resolvable : Bool
  HasMail : Bool
deriving Repr, DecidableEq

/-- The Go zero value `Verification{}`. -/
def zeroVerification : Verification :=
  ⟨"", "", zeroDNSResult, none, none, false, false⟩

/-- The full oracle for one `VerifyDomain` call: the IDNA conversion, the
DNS answers per queried name, the TLS-probe outcome per dialed name, and
the HTTP stack. -/
structure VerifyEnv where
  idna : String → String × Option GoError
  dns : String → DNSAnswers
  tls : String → TLSEnv
  http : HTTPEnv

/-- The tail of `VerifyDomain` after the DNS stage (verify.go lines 69-91):
record the DNS result, compute `Resolvable` and `HasMail` (the value Go
stores in `v.Resolvable` and reads back in the two gates), and run the TLS
and HTTP stages, each gated on its toggle and on `Resolvable`; both probes
receive the `ascii` name, as in the source.  A `none` result propagates
the modelled panic of `fetchHTTP`. -/
def verifyAfterDNS (env : VerifyEnv) (cfg : Config) (domain ascii : String)
    (dnsRes : DNSResult) : Option (Verification × Option GoError) :=
  let resolvable := dnsRes.HasA || dnsRes.HasAAAA || dnsRes.HasCNAME
  let v : Verification :=
    { Domain := domain, ASCII := ascii, DNS := dnsRes, TLS := none, HTTP := none,
      Resolvable := resolvable, HasMail := dnsRes.HasMX }
  let v := if cfg.DoTLS && resolvable then
             { v with TLS := some (fetchTLS ascii (env.tls ascii)) }
           else v
  if cfg.DoHTTP && resolvable then
    match fetchHTTP env.http true ascii cfg with
    | none => none
    | some hr => some ({ v with HTTP := some hr }, none)
  else some (v, none)

/-- `VerifyDomain` of verify.go, returning the Go `(Verification, error)`
pair; the outer `none` models a runtime panic inside the HTTP stage.
Normalization failure returns the zero `Verification` with the error;
DNS errors satisfying `errors.Is` on `context.DeadlineExceeded` or
`context.Canceled` are fatal, returning the zero `Verification` with the
error and running no further stage; every other DNS error is dropped and
verification continues with the (possibly empty) `DNSResult`. -/
def VerifyDomain (env : VerifyEnv) (domain : String) (cfg0 : Config) :
    Option (Verification × Option GoError) :=
  let cfg := applyDefaults cfg0
  let a := toASCII env.idna domain
  match a.2 with
  | some e => some (zeroVerification, some e)
  | none =>
    let ascii := a.1
    let dr := lookupDNS ascii (env.dns ascii)
    match dr.2 with
    | some e =>
        if e.isDeadlineExceeded || e.isCanceled then some (zeroVerification, some e)
        else verifyAfterDNS env cfg domain ascii dr.1
    | none => verifyAfterDNS env cfg domain ascii dr.1

/-! ### Worker loop (main) -/

/-- `Output` of main: the record written to the output queue. -/
structure Output where
  domain : String
  resolvable : Bool
  has_mail : Bool
  dns : DNSResult
  tls : Option TLSResult
  http : Option HTTPResult
deriving Repr, DecidableEq

/-- One iteration of the worker loop of main (one base candidate combined
with one TLD variant): verification errors skip the candidate, the triage
filter drops results with neither `Resolvable` nor `HasMail`, and every
other result is emitted as an `Output` built from the `Verification`.
The outer `none` of `VerifyDomain` (a panic) emits nothing. -/
def processCandidate (env : VerifyEnv) (cfg : Config) (d tld : String) :
    Option Output :=
  match VerifyDomain env (d ++ "." ++ tld) cfg with
  | none => none
  | some (_, some _) => none
  | some (v, none) =>
    if !v.Resolvable && !v.HasMail then none
    else some { domain := v.ASCII
                resolvable := v.Resolvable
                has_mail := v.HasMail
                dns := v.DNS
                tls := v.TLS
                http := v.HTTP }

/-! ### Concrete environments used as witnesses and counterexamples -/

/-- A generic, non-context lookup error. -/
def errGeneric : GoError := ⟨"lookup failure", false, false⟩

/-- The error `context.DeadlineExceeded` as `errors.Is` sees it. -/
def errDeadline : GoError := ⟨"context deadline exceeded", true, false⟩

/-- A configuration with every probe enabled and redirects followed. -/
def cfgProbe : Config := ⟨1, 1, 1, true, true, true, "sasquat-test"⟩

/-- An HTTP stack on which every request fails at the transport level. -/
def envHTTPDown : HTTPEnv :=
  { send := fun _ => .error errGeneric
    newReq := fun _ => none }

/-- DNS answers in which only the MX lookup returns data. -/
def ansMXOnly : DNSAnswers :=
  ⟨.error errGeneric, .error errGeneric, .ok ["mx1.example.test."], .error errGeneric⟩

/-- A world in which `mail.example.test` has an MX record and nothing else. -/
def envMXOnly : VerifyEnv :=
  { idna := fun s => (s, none)
    dns := fun _ => ansMXOnly
    tls := fun _ => ⟨false, false, []⟩
    http := envHTTPDown }

/-- The `DNSResult` `lookupDNS` produces from `ansMXOnly`. -/
def dnsMXOnly : DNSResult :=
  ⟨false, false, false, true, false, [], [], "", ["mx1.example.test"], []⟩

/-- The `Verification` of `mail.example.test` in the world `envMXOnly`. -/
def vMXOnly : Verification :=
  ⟨"mail.example.test", "mail.example.test", dnsMXOnly, none, none, false, true⟩

/-- DNS answers with a single IPv4 address and three failing lookups. -/
def ansAOnly : DNSAnswers :=
  ⟨.ok [⟨true, true, "93.184.216.34"⟩], .error errGeneric, .error errGeneric, .error errGeneric⟩

/-- A world in which `example.com` has one A record, TLS connects with an
empty peer chain, and HTTP is down. -/
def envAOnly : VerifyEnv :=
  { idna := fun s => (s, none)
    dns := fun _ => ansAOnly
    tls := fun _ => ⟨true, true, []⟩
    http := envHTTPDown }

/-- The `Verification` of `example.com` in the world `envAOnly`. -/
def vAOnly : Verification :=
  ⟨"example.com", "example.com",
   ⟨true, false, false, false, false, ["93.184.216.34"], [], "", [], []⟩,
   some ⟨true, "example.com", "", "", 0, 0, [], "", ""⟩,
   some ⟨true, "http://example.com/", "", 0, "", "", []⟩,
   true, false⟩

/-- An HTTP stack on which `https://example.com/` answers with one
redirect to `http://next.example.test/`, which answers 200. -/
def envRedirect : HTTPEnv :=
  { send := fun u =>
      if u = "https://example.com/" then
        .ok ⟨"301 Moved Permanently", 301, "http://next.example.test/", "srv", true,
             "http://next.example.test/"⟩
      else if u = "http://next.example.test/" then
        .ok ⟨"200 OK", 200, "", "nginx", false, ""⟩
      else .error errGeneric
    newReq := fun _ => none }

/-- The result `fetchHTTP` returns on `envRedirect` for `example.com`. -/
def resRedirectFinal : HTTPResult :=
  ⟨true, "https://example.com/", "200 OK", 200, "", "nginx", []⟩

/-- A world in which every DNS lookup times out with
`context.DeadlineExceeded`. -/
def envDNSDeadline : VerifyEnv :=
  { idna := fun s => (s, none)
    dns := fun _ => ⟨.error errDeadline, .error errDeadline, .error errDeadline, .error errDeadline⟩
    tls := fun _ => ⟨false, false, []⟩
    http := envHTTPDown }

/-! ## Helper lemmas -/

/-- The nested error-selection ladder of dns.go equals the first failure
of the priority list [address, CNAME, MX, NS]. -/
theorem dnsErrChoice_eq_firstFailure (ans : DNSAnswers) :
    dnsErrChoice ans = dnsFirstFailure ans := by
  unfold dnsErrChoice dnsFirstFailure
  cases ans.ipAddrs <;> cases ans.cname <;> cases ans.mx <;> cases ans.ns <;> simp [errOf]

/-- Both branches of `lookupDNS` return the collected record unchanged. -/
theorem lookupDNS_fst (domain : String) (ans : DNSAnswers) :
    (lookupDNS domain ans).1 = dnsFromAnswers domain ans := by
  unfold lookupDNS
  dsimp only
  split <;> rfl

/-- Go's `Do` contract inside the redirect loop: a nil error comes with a
non-nil response. -/
theorem doFollow_err_none_resp (send : String → Except GoError Response) :
    ∀ (budget : Nat) (chain trace : List String) (url : String),
      (doFollow send chain trace url budget).err = none →
      (doFollow send chain trace url budget).resp.isSome := by
  intro budget
  induction budget with
  | zero =>
    intro chain trace url h
    unfold doFollow at h ⊢
    cases hs : send url with
    | error e => simp [hs] at h
    | ok r =>
      by_cases hr : r.isRedirect
      · simp [hs, hr] at h
      · simp [hs, hr]
  | succ n ih =>
    intro chain trace url h
    unfold doFollow at h ⊢
    cases hs : send url with
    | error e => simp [hs] at h
    | ok r =>
      by_cases hr : r.isRedirect
      · simp only [hs, hr, if_true] at h ⊢
        exact ih _ _ _ h
      · simp [hs, hr]

/-- Go's `Do` contract for the whole client call: a nil error comes with a
non-nil response. -/
theorem clientDo_err_none_resp (client : GoHTTPClient)
    (send : String → Except GoError Response) (url : String)
    (h : ((clientDo client send url).1).err = none) :
    ((clientDo client send url).1).resp.isSome := by
  unfold clientDo at h ⊢
  by_cases hf : client.followRedirects
  · simp only [hf, if_true] at h ⊢
    exact doFollow_err_none_resp send 9 _ _ _ h
  · simp only [hf] at h ⊢
    cases hs : send url with
    | error e => simp [hs] at h
    | ok r => simp [hs]

/-- With the HTTPS-first preference the probe never reaches the nil
dereference: the modelled panic value is impossible. -/
theorem fetchHTTPT_https_ne_none (env : HTTPEnv) (domain : String) (cfg : Config)
    (h : (fetchHTTPT env true domain cfg).1 = none) : False := by
  unfold fetchHTTPT at h
  dsimp only at h
  split at h
  · simp at h
  · have hinv1 := clientDo_err_none_resp
      (configureHTTPClient cfg (generateHTTPResult true domain)) env.send
      (generateHTTPResult true domain).URL
    have hinv2 := clientDo_err_none_resp
      (clientDo (configureHTTPClient cfg (generateHTTPResult true domain)) env.send
        (generateHTTPResult true domain).URL).2 env.send
      (getTargetDomain false domain)
    split at h
    · split at h
      · simp at h
      · split at h
        · simp at h
        · next he =>
          split at h
          · next hr =>
            have := hinv2 he
            rw [hr] at this
            simp at this
          · simp at h
    · next hc =>
      have he1 : (clientDo (configureHTTPClient cfg (generateHTTPResult true domain))
          env.send (generateHTTPResult true domain).URL).1.err = none := by
        cases hd : (clientDo (configureHTTPClient cfg (generateHTTPResult true domain))
            env.send (generateHTTPResult true domain).URL).1.err with
        | none => rfl
        | some e => rw [hd] at hc; simp at hc
      split at h
      · next hr =>
        have := hinv1 he1
        rw [hr] at this
        simp at this
      · simp at h

/-- `fetchHTTP` with the HTTPS preference always returns a result. -/
theorem fetchHTTP_https_isSome (env : HTTPEnv) (domain : String) (cfg : Config) :
    (fetchHTTP env true domain cfg).isSome := by
  cases ho : fetchHTTP env true domain cfg with
  | none => exact (fetchHTTPT_https_ne_none env domain cfg ho).elim
  | some r => simp

/-- Every `HTTPResult` the probe returns carries an empty redirect chain:
the closure of `configureHTTPClient` appends to a by-value copy, and no
path writes `RedirectChain` on the returned result. -/
theorem fetchHTTPT_chain_empty (env : HTTPEnv) (https : Bool) (domain : String)
    (cfg : Config) (r : HTTPResult)
    (h : (fetchHTTPT env https domain cfg).1 = some r) : r.RedirectChain = [] := by
  unfold fetchHTTPT at h
  dsimp only at h
  split at h
  · simp only [Option.some.injEq] at h
    simp [← h, generateHTTPResult]
  · split at h
    · split at h
      · simp only [Option.some.injEq] at h
        simp [← h, generateHTTPResult]
      · split at h
        · simp only [Option.some.injEq] at h
          simp [← h, generateHTTPResult]
        · split at h
          · simp at h
          · simp only [Option.some.injEq] at h
            simp [← h, generateHTTPResult]
    · split at h
      · simp at h
      · simp only [Option.some.injEq] at h
        simp [← h, generateHTTPResult]

/-- The defaulting prologue does not touch the `DoTLS` toggle. -/
theorem applyDefaults_DoTLS (cfg : Config) : (applyDefaults cfg).DoTLS = cfg.DoTLS := by
  unfold applyDefaults
  dsimp only
  repeat' split
  all_goals rfl

/-- The defaulting prologue does not touch the `DoHTTP` toggle. -/
theorem applyDefaults_DoHTTP (cfg : Config) : (applyDefaults cfg).DoHTTP = cfg.DoHTTP := by
  unfold applyDefaults
  dsimp only
  repeat' split
  all_goals rfl

/-- Field relations of every success result of the post-DNS stages. -/
theorem verifyAfterDNS_fields (env : VerifyEnv) (cfg : Config) (domain ascii : String)
    (dnsRes : DNSResult) (v : Verification)
    (h : verifyAfterDNS env cfg domain ascii dnsRes = some (v, none)) :
    v.DNS = dnsRes ∧
    v.Resolvable = (v.DNS.HasA || v.DNS.HasAAAA || v.DNS.HasCNAME) ∧
    v.HasMail = v.DNS.HasMX ∧
    v.TLS.isSome = (cfg.DoTLS && v.Resolvable) ∧
    v.HTTP.isSome = (cfg.DoHTTP && v.Resolvable) := by
  unfold verifyAfterDNS at h
  dsimp only at h
  split at h <;> split at h
  all_goals try split at h
  all_goals
    first
    | exact Option.noConfusion h
    | (injection h with h; injection h with h1 h2; subst h1; simp_all)

/-- The post-DNS stages always produce a success pair recording the DNS
result (the HTTP stage runs with the HTTPS preference, which never
panics). -/
theorem verifyAfterDNS_exists (env : VerifyEnv) (cfg : Config) (domain ascii : String)
    (dnsRes : DNSResult) :
    ∃ v, verifyAfterDNS env cfg domain ascii dnsRes = some (v, none) ∧ v.DNS = dnsRes := by
  unfold verifyAfterDNS
  dsimp only
  by_cases hc : (cfg.DoHTTP && (dnsRes.HasA || dnsRes.HasAAAA || dnsRes.HasCNAME)) = true
  · simp only [hc, if_true]
    have hs := fetchHTTP_https_isSome env.http ascii cfg
    cases ho : fetchHTTP env.http true ascii cfg with
    | none => rw [ho] at hs; simp at hs
    | some hr =>
      refine ⟨_, rfl, ?_⟩
      split <;> rfl
  · simp only [Bool.not_eq_true] at hc
    simp only [hc, if_false]
    refine ⟨_, rfl, ?_⟩
    split <;> rfl

/-! ## Claims -/

/-- Claim C1: for every hostname and answer environment, `lookupDNS`
returns a nil error whenever at least one record type produced data (a
presence flag is set), and when no record type produced data it returns
the error of the first failing lookup in the priority order
[address, CNAME, MX, NS] (nil when no lookup failed). -/
theorem lookupDNS_error_policy (domain : String) (ans : DNSAnswers) :
    (lookupDNS domain ans).2 =
      if dnsAnyData (lookupDNS domain ans).1 then none else dnsFirstFailure ans := by
  rw [lookupDNS_fst]
  unfold lookupDNS dnsAnyData
  cases h1 : (dnsFromAnswers domain ans).HasA <;>
    cases h2 : (dnsFromAnswers domain ans).HasAAAA <;>
    cases h3 : (dnsFromAnswers domain ans).HasCNAME <;>
    cases h4 : (dnsFromAnswers domain ans).HasMX <;>
    cases h5 : (dnsFromAnswers domain ans).HasNS <;>
    simp [h1, h2, h3, h4, h5, dnsErrChoice_eq_firstFailure]

/-- Claim C2 (code bug): with `HTTPFollowRedirects` on, a probe of
`example.com` on `envRedirect` sends two requests on the wire (the
redirect is followed: the final status is the 200 of the redirect
target), yet the returned `HTTPResult` has an empty `RedirectChain` — the
`CheckRedirect` closure appends to the by-value copy of `result` captured
in `configureHTTPClient`, which is lost.  The claim (and the repository's
own test and the doc comment of `fetchHTTP`) expects the intermediate
request URL `http://next.example.test/` in the chain. -/
theorem fetchHTTP_redirect_chain_lost :
    fetchHTTPT envRedirect true "example.com" cfgProbe =
      (some resRedirectFinal, ["https://example.com/", "http://next.example.test/"]) ∧
    resRedirectFinal.Status = "200 OK" ∧
    resRedirectFinal.RedirectChain = [] := by
  refine ⟨by decide, by decide, by decide⟩

/-- Claim C10 (code bug): a probe that was asked for plain HTTP
(`https = false`) and whose single attempt fails at the transport level
reaches the fall-through at http.go lines 89-92 with a nil response and
dereferences it (modelled as `none`) instead of returning the
partially-populated result. -/
theorem fetchHTTP_http_only_transport_failure :
    fetchHTTP envHTTPDown false "example.com" cfgProbe = none := by decide

/-- Claim C6 counterexample: on a failed dial, `fetchTLS` returns
`Connected = false` but `ServerName` holds the input domain, so not every
other field is zero-valued. -/
theorem fetchTLS_zero_fields_ce :
    (fetchTLS "example.com" ⟨false, false, []⟩).Connected = false ∧
    (fetchTLS "example.com" ⟨false, false, []⟩).ServerName ≠ "" := by
  refine ⟨by decide, by decide⟩

/-- Claim C6 as amended: whenever `fetchTLS` returns `Connected = false`
(dial failure or handshake failure), every field other than `ServerName`
is zero-valued and `ServerName` is the input domain; no error is raised to
the caller (the function returns only a `TLSResult`). -/
theorem fetchTLS_not_connected_fields (domain : String) (env : TLSEnv)
    (h : (fetchTLS domain env).Connected = false) :
    fetchTLS domain env = { zeroTLSResult with ServerName := domain } := by
  by_cases hd : env.dialOk
  · by_cases hh : env.handshakeOk
    · exfalso
      unfold fetchTLS at h
      rcases hp : env.peerCerts with _ | ⟨c, cs⟩ <;> simp [hd, hh, hp] at h
    · unfold fetchTLS
      simp [hd, hh]
  · unfold fetchTLS
    simp [hd]

/-- Witness for the amended claim C6 at a concrete failed dial. -/
theorem fetchTLS_not_connected_fields_witness :
    fetchTLS "example.com" ⟨false, false, []⟩ =
      { zeroTLSResult with ServerName := "example.com" } :=
  fetchTLS_not_connected_fields "example.com" ⟨false, false, []⟩ (by decide)

/-- Claim C7 counterexample: `toASCII` applies `TrimSuffix` before
`TrimSpace`, so on the input with a trailing dot followed by whitespace
the dot survives: with an identity conversion oracle the result is
`example.com.` and not the fully trimmed `example.com`. -/
theorem toASCII_trim_order_ce :
    toASCII (fun s => (s, none)) "example.com. " = ("example.com.", none) ∧
    ("example.com." : String) ≠ "example.com" := by
  refine ⟨by decide, by decide⟩

/-- Claim C7 as amended: `toASCII` trims one trailing dot first and then
surrounding whitespace (a trailing dot separated from the end by
whitespace is kept); for any conversion oracle that does not itself
produce the empty-domain error, it fails with that error exactly when the
trimmed result is empty, and otherwise returns the IDNA conversion of the
trimmed domain (including the conversion's own failure, if any). -/
theorem toASCII_trim_dot_then_space (idna : String → String × Option GoError)
    (domain : String) (hidna : ∀ s, idna s ≠ ("", some invalidDomainErr)) :
    (toASCII idna domain = ("", some invalidDomainErr) ↔
       goTrimSpace (goTrimSuffix domain ".") = "") ∧
    (goTrimSpace (goTrimSuffix domain ".") ≠ "" →
       toASCII idna domain = idna (goTrimSpace (goTrimSuffix domain "."))) := by
  unfold toASCII
  by_cases h : goTrimSpace (goTrimSuffix domain ".") = "" <;> simp [h, hidna]

/-- Claim C4: when the initial HEAD attempt is made with the HTTPS
preference and fails at the transport level, exactly one subsequent
attempt is issued, against the `http://` URL of the same host, with a
freshly built request (the request trace is exactly
[https URL, http URL] when that second attempt also fails at the
transport level); and in that case the returned `HTTPResult` has
`Attempted = true` and an empty `Status`. -/
theorem fetchHTTP_https_fallback (env : HTTPEnv) (domain : String) (cfg : Config)
    (e1 e2 : GoError)
    (hr1 : env.newReq (getTargetDomain true domain) = none)
    (h1 : env.send (getTargetDomain true domain) = .error e1)
    (hr2 : env.newReq (getTargetDomain false domain) = none)
    (h2 : env.send (getTargetDomain false domain) = .error e2) :
    fetchHTTPT env true domain cfg =
      (some ⟨true, getTargetDomain false domain, "", 0, "", "", []⟩,
       [getTargetDomain true domain, getTargetDomain false domain]) := by
  unfold fetchHTTPT clientDo generateHTTPResult configureHTTPClient
  cases hf : cfg.HTTPFollowRedirects <;>
    simp [hf, hr1, hr2, h1, h2, doFollow]

/-- Witness for claim C4 on the concrete all-down HTTP stack. -/
theorem fetchHTTP_https_fallback_witness :
    fetchHTTPT envHTTPDown true "example.com" cfgProbe =
      (some ⟨true, getTargetDomain false "example.com", "", 0, "", "", []⟩,
       [getTargetDomain true "example.com", getTargetDomain false "example.com"]) :=
  fetchHTTP_https_fallback envHTTPDown "example.com" cfgProbe errGeneric errGeneric
    rfl rfl rfl rfl

/-- Claim C5: for every invocation of the HTTP probe that returns a
result, the `RedirectChain` of the returned `HTTPResult` has length at
most 10, regardless of how many redirects the target serves and of
`FollowRedirects` (in fact the returned chain is always empty, since the
closure writes only a by-value copy). -/
theorem fetchHTTP_redirectChain_le_ten (env : HTTPEnv) (https : Bool) (domain : String)
    (cfg : Config) (r : HTTPResult) (h : fetchHTTP env https domain cfg = some r) :
    r.RedirectChain.length ≤ 10 := by
  unfold fetchHTTP at h
  have hc := fetchHTTPT_chain_empty env https domain cfg r h
  simp [hc]

/-- Witness for claim C5 at a concrete probe. -/
theorem fetchHTTP_redirectChain_le_ten_witness :
    ((⟨true, "http://example.com/", "", 0, "", "", []⟩ : HTTPResult)).RedirectChain.length ≤ 10 :=
  fetchHTTP_redirectChain_le_ten envHTTPDown true "example.com" cfgProbe _ (by decide)

/-- Claim C3: every `Verification` returned without error by
`VerifyDomain` has `Resolvable` true iff one of `HasA`, `HasAAAA`,
`HasCNAME` is set in its `DNSResult`, `HasMail` true iff `HasMX` is set,
a non-nil `TLS` field iff `Config.DoTLS` and `Resolvable` both hold, and
a non-nil `HTTP` field iff `Config.DoHTTP` and `Resolvable` both hold. -/
theorem verifyDomain_fields (env : VerifyEnv) (domain : String) (cfg : Config)
    (v : Verification) (h : VerifyDomain env domain cfg = some (v, none)) :
    v.Resolvable = (v.DNS.HasA || v.DNS.HasAAAA || v.DNS.HasCNAME) ∧
    v.HasMail = v.DNS.HasMX ∧
    v.TLS.isSome = (cfg.DoTLS && v.Resolvable) ∧
    v.HTTP.isSome = (cfg.DoHTTP && v.Resolvable) := by
  unfold VerifyDomain at h
  dsimp only at h
  split at h
  · simp at h
  · split at h
    · split at h
      · simp at h
      · have hf := verifyAfterDNS_fields env (applyDefaults cfg) domain _ _ v h
        refine ⟨hf.2.1, hf.2.2.1, ?_, ?_⟩
        · rw [hf.2.2.2.1, applyDefaults_DoTLS]
        · rw [hf.2.2.2.2, applyDefaults_DoHTTP]
    · have hf := verifyAfterDNS_fields env (applyDefaults cfg) domain _ _ v h
      refine ⟨hf.2.1, hf.2.2.1, ?_, ?_⟩
      · rw [hf.2.2.2.1, applyDefaults_DoTLS]
      · rw [hf.2.2.2.2, applyDefaults_DoHTTP]

set_option maxRecDepth 8192 in
/-- Witness for claim C3 in a world with one A record, TLS and HTTP both
enabled. -/
theorem verifyDomain_fields_witness :
    vAOnly.Resolvable = (vAOnly.DNS.HasA || vAOnly.DNS.HasAAAA || vAOnly.DNS.HasCNAME) ∧
    vAOnly.HasMail = vAOnly.DNS.HasMX ∧
    vAOnly.TLS.isSome = (cfgProbe.DoTLS && vAOnly.Resolvable) ∧
    vAOnly.HTTP.isSome = (cfgProbe.DoHTTP && vAOnly.Resolvable) :=
  verifyDomain_fields envAOnly "example.com" cfgProbe vAOnly (by decide)

/-- Claim C8: when normalization succeeds and the DNS stage fails, a
failure satisfying `errors.Is` on `context.DeadlineExceeded` or
`context.Canceled` is fatal — `VerifyDomain` returns the zero
`Verification` (no TLS or HTTP stage result) together with that error —
while any other DNS failure is non-fatal: the returned verification
records the (possibly empty) `DNSResult` and the error is nil. -/
theorem verifyDomain_dns_error_policy (env : VerifyEnv) (domain : String) (cfg : Config)
    (e : GoError)
    (ha : (toASCII env.idna domain).2 = none)
    (hd : (lookupDNS (toASCII env.idna domain).1
            (env.dns (toASCII env.idna domain).1)).2 = some e) :
    ((e.isDeadlineExceeded || e.isCanceled) = true →
       VerifyDomain env domain cfg = some (zeroVerification, some e)) ∧
    ((e.isDeadlineExceeded || e.isCanceled) = false →
       ∃ v, VerifyDomain env domain cfg = some (v, none) ∧
         v.DNS = (lookupDNS (toASCII env.idna domain).1
                   (env.dns (toASCII env.idna domain).1)).1) := by
  constructor
  · intro hctx
    unfold VerifyDomain
    dsimp only
    rw [ha]
    dsimp only
    rw [hd]
    dsimp only
    rw [hctx]
    simp
  · intro hctx
    unfold VerifyDomain
    dsimp only
    rw [ha]
    dsimp only
    rw [hd]
    dsimp only
    rw [hctx]
    simp only [Bool.false_eq_true, if_false]
    exact verifyAfterDNS_exists env (applyDefaults cfg) domain _ _

set_option maxRecDepth 8192 in
/-- Witness for claim C8 in a world where every DNS lookup hits the
context deadline. -/
theorem verifyDomain_dns_error_policy_witness :
    VerifyDomain envDNSDeadline "example.com" cfgProbe =
      some (zeroVerification, some errDeadline) :=
  (verifyDomain_dns_error_policy envDNSDeadline "example.com" cfgProbe errDeadline
    (by decide) (by decide)).1 (by decide)

/-- Claim C9: a worker iteration emits a record to the output queue iff
the error-free `Verification` has `Resolvable` or `HasMail` set; in
particular an MX-only hostname (`Resolvable = false`, `HasMail = true`)
passes the triage filter and a hostname with neither is discarded. -/
theorem worker_triage_filter (env : VerifyEnv) (cfg : Config) (d tld : String)
    (v : Verification) (h : VerifyDomain env (d ++ "." ++ tld) cfg = some (v, none)) :
    (processCandidate env cfg d tld).isSome = (v.Resolvable || v.HasMail) := by
  unfold processCandidate
  rw [h]
  cases hr : v.Resolvable <;> cases hm : v.HasMail <;> simp [hr, hm]

set_option maxRecDepth 8192 in
/-- Witness for claim C9: the MX-only hostname `mail.example.test` is
emitted even though it is not resolvable. -/
theorem worker_triage_filter_witness :
    vMXOnly.Resolvable = false ∧ vMXOnly.HasMail = true ∧
    (processCandidate envMXOnly cfgProbe "mail.example" "test").isSome =
      (vMXOnly.Resolvable || vMXOnly.HasMail) :=
  ⟨by decide, by decide,
   worker_triage_filter envMXOnly cfgProbe "mail.example" "test" vMXOnly (by decide)⟩

/-- Witness for the amended claim C7 on a concrete domain with leading
whitespace and a trailing dot. -/
theorem toASCII_trim_dot_then_space_witness :
    (toASCII (fun s => (s, none)) " example.com." = ("", some invalidDomainErr) ↔
       goTrimSpace (goTrimSuffix " example.com." ".") = "") ∧
    (goTrimSpace (goTrimSuffix " example.com." ".") ≠ "" →
       toASCII (fun s => (s, none)) " example.com." =
         (goTrimSpace (goTrimSuffix " example.com." "."), none)) :=
  toASCII_trim_dot_then_space (fun s => (s, none)) " example.com." (fun s => by simp)

end Sasquat
